import Mathlib

/-!
Shallow embedding of the `google_indexing_api` program (`main.go`).

The program reads a sitemap into an ordered URL list, loads two CSV files
(already-indexed URLs and already-sent URLs), computes today's remaining
daily budget from the sent file's timestamp column, and then iterates the
sitemap: URLs present in either loaded set are skipped; otherwise a counter
is incremented, a 24-hour pause (with counter/limit reset) fires when the
counter exceeds the remaining budget, the URL is published, and on a 200
status the URL is appended to the sent CSV followed by a pacing sleep.

Modelling conventions:
- machine integers are `Int` (Go `int`/`int64`); Go's truncated division is
  `Int.tdiv`; division by zero, which panics in Go, is an explicit error;
- time is a `Nat` counting nanoseconds; `time.Sleep` of a non-positive
  duration is a no-op, hence `Int.toNat` on the sleep amount;
- files are abstracted at the CSV-record level (`List (List String)`); the
  Go `csv.Reader.ReadAll` field-count check and the out-of-range record
  index panics are modelled as errors;
- the remote publish call and the on-disk append are oracles
  (`String → PubResult`, `String → Bool`); the run is instrumented with a
  ghost event trace recording skips, pauses, publish outcomes and sends.
-/

/-- Fatal startup outcomes of `main`: a failed `strconv.Atoi`, the division
by zero when the per-minute limit is 0, an unreadable file, the csv
field-count error, and the out-of-range record index panic. -/
inductive MainError where
  | configErr
  | divByZero
  | ioErr
  | csvFieldCount
  | indexOutOfRange
deriving Repr, DecidableEq

/-- Abstract state of a file path: absent, unreadable (e.g. permissions), or
present with its parsed CSV records. -/
inductive FileState where
  | absent
  | unreadable
  | present (records : List (List String))
deriving Repr, DecidableEq

/-- Outcome of `client.UrlNotifications.Publish(...).Do()`: a transport
error (`err != nil`) or a response with an HTTP status code. -/
inductive PubResult where
  | err
  | ok (status : Nat)
deriving Repr, DecidableEq

/-- Ghost trace events of one loop iteration of `main`. -/
inductive Event where
  | skip (url : String)
  | pause
  | pubErr (url : String)
  | badStatus (url : String) (code : Nat)
  | appendFail (url : String)
  | sent (url : String) (time : Nat)
deriving Repr, DecidableEq

/-- Mutable state of `main`'s loop: the `count` variable, the `todayLimit`
variable, the current clock (ns), the records appended to the sent CSV with
their timestamps, and the ghost event trace. -/
structure RunState where
  count : Int
  todayLimit : Int
  time : Nat
  log : List (String × Nat)
  events : List Event
deriving Repr, DecidableEq

/-- Run-constant inputs of `main`'s loop: the parsed daily limit, the
computed sleep duration (ns, may be negative), the publish and append
oracles, and the two URL sets loaded at startup. -/
structure Params where
  dayLimit : Int
  sleepDur : Int
  notifier : String → PubResult
  appendOk : String → Bool
  indexedUrls : List String
  sentUrls : List String

/-- `contains` from main.go: membership in a loaded URL set (the Go map is
modelled as the list of its keys). -/
def contains (m : List String) (s : String) : Bool :=
  m.contains s

/-- Kernel-computable model of the Go `strings.HasPrefix` check used in
`todaySent`: the candidate is a character-for-character initial segment. -/
def strStartsWith (s pre : String) : Bool :=
  pre.data.isPrefixOf s.data

/-- Go `csv.Reader.ReadAll` with the default `FieldsPerRecord = 0`: the
first record fixes the expected field count and any record with a different
count is an error. -/
def csvReadAll (records : List (List String)) : Except MainError (List (List String)) :=
  match records with
  | [] => Except.ok []
  | r :: rest =>
      if rest.all (fun x => x.length == r.length) then Except.ok (r :: rest)
      else Except.error MainError.csvFieldCount

/-- Go `record[i]`: out-of-range access panics, modelled as an error. -/
def recordField (r : List String) (i : Nat) : Except MainError String :=
  match r[i]? with
  | some v => Except.ok v
  | none => Except.error MainError.indexOutOfRange

/-- The row loops of `readCsv` and `todaySent`: extract `record[i]` of every
row in order; the first out-of-range access aborts (the Go panic stops the
loop at that row). -/
def fieldColumn (i : Nat) : List (List String) → Except MainError (List String)
  | [] => Except.ok []
  | r :: rest =>
      match recordField r i with
      | Except.error e => Except.error e
      | Except.ok v =>
          match fieldColumn i rest with
          | Except.error e => Except.error e
          | Except.ok vs => Except.ok (v :: vs)

/-- `readCsv` from main.go: opens with `O_RDWR|O_CREATE` (an absent file is
created empty), reads all records, and collects `record[0]` of each row.
Returns the URL set together with the file's state after the call. -/
def readCsv (f : FileState) : Except MainError (List String × FileState) :=
  match f with
  | FileState.unreadable => Except.error MainError.ioErr
  | FileState.absent => Except.ok ([], FileState.present [])
  | FileState.present records =>
      match csvReadAll records with
      | Except.error e => Except.error e
      | Except.ok recs =>
          match fieldColumn 0 recs with
          | Except.error e => Except.error e
          | Except.ok urls => Except.ok (urls, FileState.present records)

/-- `todaySent` from main.go: opens with `os.Open` (an absent file is an
error), reads all records, and counts rows whose `record[1]` starts with
today's `2006-01-02`-formatted date. -/
def todaySent (f : FileState) (today : String) : Except MainError Nat :=
  match f with
  | FileState.unreadable => Except.error MainError.ioErr
  | FileState.absent => Except.error MainError.ioErr
  | FileState.present records =>
      match csvReadAll records with
      | Except.error e => Except.error e
      | Except.ok recs =>
          match fieldColumn 1 recs with
          | Except.error e => Except.error e
          | Except.ok fields =>
              Except.ok ((fields.filter (fun ts => strStartsWith ts today)).length)

/-- `appendUrlToCsv` from main.go, at the record level: appends one
`[url, timestamp]` row to the sent file. -/
def appendUrlToCsv (records : List (List String)) (url ts : String) : List (List String) :=
  records ++ [[url, ts]]

/-- Appends a batch of (url, timestamp) pairs one by one via
`appendUrlToCsv`. -/
def appendAll (records : List (List String)) (pairs : List (String × String)) : List (List String) :=
  pairs.foldl (fun acc p => appendUrlToCsv acc p.1 p.2) records

/-- Digit-string accumulator of the `strconv.Atoi` model. -/
def parseDigitsAux : List Char → Nat → Option Nat
  | [], acc => some acc
  | c :: cs, acc =>
      if c.isDigit then parseDigitsAux cs (acc * 10 + (c.toNat - 48)) else none

/-- Model of Go `strconv.Atoi` on a 64-bit platform: optional sign, at least
one digit, nothing else; out-of-range values are errors (`ErrRange`). -/
def atoi (s : String) : Except MainError Int :=
  let check : Int → Except MainError Int := fun v =>
    if v < -(2 ^ 63) ∨ 2 ^ 63 - 1 < v then Except.error MainError.configErr
    else Except.ok v
  match s.data with
  | [] => Except.error MainError.configErr
  | '-' :: cs =>
      match cs, parseDigitsAux cs 0 with
      | [], _ => Except.error MainError.configErr
      | _, none => Except.error MainError.configErr
      | _, some n => check (-(n : Int))
  | '+' :: cs =>
      match cs, parseDigitsAux cs 0 with
      | [], _ => Except.error MainError.configErr
      | _, none => Except.error MainError.configErr
      | _, some n => check (n : Int)
  | cs =>
      match parseDigitsAux cs 0 with
      | none => Except.error MainError.configErr
      | some n => check (n : Int)

/-- Line 65 of main.go: `time.Minute/time.Duration(n) + time.Millisecond*100`
in nanoseconds, with Go's truncated integer division; `n = 0` panics in Go,
modelled as an error. -/
def computeSleep (m : Int) : Except MainError Int :=
  if m = 0 then Except.error MainError.divByZero
  else Except.ok (Int.tdiv 60000000000 m + 100000000)

/-- 24 hours in nanoseconds (`time.Sleep(24 * time.Hour)`). -/
def dayNs : Nat := 86400000000000

/-- Line 103 of main.go: a URL is processed only if it is in neither loaded
set. -/
def dedupPass (p : Params) (url : String) : Bool :=
  !(contains p.indexedUrls url) && !(contains p.sentUrls url)

/-- Lines 104-111 of main.go: increment `count`; if it exceeds `todayLimit`,
sleep 24 hours, reset `count` to 0 and `todayLimit` to the full daily
limit. -/
def afterQuota (dayLimit : Int) (st : RunState) : RunState :=
  if st.count + 1 > st.todayLimit then
    { st with
        count := 0
        todayLimit := dayLimit
        time := st.time + dayNs
        events := st.events ++ [Event.pause] }
  else
    { st with count := st.count + 1 }

/-- Lines 113-137 of main.go: publish the URL; on a transport error or a
non-200 status, `continue` with no further effect; otherwise append to the
sent CSV (which can itself fail, again `continue`) and only then sleep the
pacing duration. -/
def afterPublish (p : Params) (st : RunState) (url : String) : RunState :=
  match p.notifier url with
  | PubResult.err => { st with events := st.events ++ [Event.pubErr url] }
  | PubResult.ok status =>
      if status ≠ 200 then
        { st with events := st.events ++ [Event.badStatus url status] }
      else if p.appendOk url then
        { st with
            log := st.log ++ [(url, st.time)]
            time := st.time + p.sleepDur.toNat
            events := st.events ++ [Event.sent url st.time] }
      else
        { st with events := st.events ++ [Event.appendFail url] }

/-- One iteration of the loop at lines 102-139 of main.go. -/
def processUrl (p : Params) (st : RunState) (url : String) : RunState :=
  if dedupPass p url then afterPublish p (afterQuota p.dayLimit st) url
  else { st with events := st.events ++ [Event.skip url] }

/-- The loop of main.go from an arbitrary state. -/
def runFrom (p : Params) (st : RunState) (urls : List String) : RunState :=
  urls.foldl (processUrl p) st

/-- The loop of main.go from its initial state: `count = 0`,
`todayLimit = rateLimitDayInt - todayAlreadySent`, start clock `t0`, empty
append log and trace. -/
def run (p : Params) (todayLimit0 : Int) (t0 : Nat) (urls : List String) : RunState :=
  runFrom p { count := 0, todayLimit := todayLimit0, time := t0, log := [], events := [] } urls

/-- Lines 77-93 of main.go: read the indexed CSV, read (and possibly
create) the sent CSV, then count today's rows of the sent file. -/
def loadStartup (indexedF sentF : FileState) (today : String) :
    Except MainError (List String × List String × Nat) :=
  match readCsv indexedF with
  | Except.error e => Except.error e
  | Except.ok (indexedUrls, _) =>
      match readCsv sentF with
      | Except.error e => Except.error e
      | Except.ok (sentUrls, sentF1) =>
          match todaySent sentF1 today with
          | Except.error e => Except.error e
          | Except.ok tas => Except.ok (indexedUrls, sentUrls, tas)

/-- `main` end to end, with the external collaborators abstracted: the two
rate-limit environment strings are parsed, the sleep duration computed, the
files loaded, and the loop run on the sitemap's URL list. The sitemap
parse and the service construction are external and elided. -/
def program (dayStr minStr : String) (indexedF sentF : FileState) (urls : List String)
    (notifier : String → PubResult) (appendOk : String → Bool) (today : String) (t0 : Nat) :
    Except MainError RunState :=
  match atoi dayStr with
  | Except.error e => Except.error e
  | Except.ok dayLimit =>
      match atoi minStr with
      | Except.error e => Except.error e
      | Except.ok minLimit =>
          match computeSleep minLimit with
          | Except.error e => Except.error e
          | Except.ok sleepDur =>
              match loadStartup indexedF sentF today with
              | Except.error e => Except.error e
              | Except.ok (indexedUrls, sentUrls, tas) =>
                  Except.ok (run { dayLimit := dayLimit, sleepDur := sleepDur,
                                   notifier := notifier, appendOk := appendOk,
                                   indexedUrls := indexedUrls, sentUrls := sentUrls }
                                 (dayLimit - (tas : Int)) t0 urls)

/-- URLs on which the publish call was actually invoked, read off the
trace. -/
def publishedUrls : List Event → List String
  | [] => []
  | Event.pubErr u :: es => u :: publishedUrls es
  | Event.badStatus u _ :: es => u :: publishedUrls es
  | Event.sent u _ :: es => u :: publishedUrls es
  | _ :: es => publishedUrls es

/-- Number of successful persisted sends in a trace. -/
def sentCount (es : List Event) : Nat :=
  es.countP (fun e => match e with | Event.sent _ _ => true | _ => false)

/-- Number of log entries for a given URL. -/
def logCount (u : String) (log : List (String × Nat)) : Nat :=
  log.countP (fun e => e.1 == u)

/-- Number of log entries whose timestamp falls on calendar day `d` (days
since the epoch, midnight-aligned). -/
def dateCount (log : List (String × Nat)) (d : Nat) : Nat :=
  (log.filter (fun e => e.2 / dayNs == d)).length

/-- Trace of a completed program, empty when startup failed. -/
def progEvents (r : Except MainError RunState) : List Event :=
  match r with
  | Except.ok st => st.events
  | Except.error _ => []

/-- Events generated by the single loop iteration for `u` (the trace is
append-only, so these are the events past the incoming trace). -/
def stepEvents (p : Params) (st : RunState) (u : String) : List Event :=
  (processUrl p st u).events.drop st.events.length

/-! ### Basic lemmas about the loop body -/

theorem runFrom_nil (p : Params) (st : RunState) : runFrom p st [] = st := rfl

theorem runFrom_cons (p : Params) (st : RunState) (u : String) (urls : List String) :
    runFrom p st (u :: urls) = runFrom p (processUrl p st u) urls := rfl

@[simp] theorem publishedUrls_nil : publishedUrls [] = [] := rfl

@[simp] theorem publishedUrls_skip (v : String) (es : List Event) :
    publishedUrls (Event.skip v :: es) = publishedUrls es := rfl

@[simp] theorem publishedUrls_pause (es : List Event) :
    publishedUrls (Event.pause :: es) = publishedUrls es := rfl

@[simp] theorem publishedUrls_pubErr (v : String) (es : List Event) :
    publishedUrls (Event.pubErr v :: es) = v :: publishedUrls es := rfl

@[simp] theorem publishedUrls_badStatus (v : String) (c : Nat) (es : List Event) :
    publishedUrls (Event.badStatus v c :: es) = v :: publishedUrls es := rfl

@[simp] theorem publishedUrls_appendFail (v : String) (es : List Event) :
    publishedUrls (Event.appendFail v :: es) = publishedUrls es := rfl

@[simp] theorem publishedUrls_sent (v : String) (t : Nat) (es : List Event) :
    publishedUrls (Event.sent v t :: es) = v :: publishedUrls es := rfl

theorem publishedUrls_append (a b : List Event) :
    publishedUrls (a ++ b) = publishedUrls a ++ publishedUrls b := by
  induction a with
  | nil => rfl
  | cons e es ih => cases e <;> simp [ih]

/-- Exhaustive characterisation of one loop iteration: either the URL is in
a loaded set and only a skip is recorded, or the quota step runs (pausing
and resetting exactly when the incremented count exceeds the limit) and the
publish outcome is one of transport error, bad status, persisted send with
pacing sleep, or failed append. -/
theorem processUrl_spec (p : Params) (st : RunState) (u : String) :
    (dedupPass p u = false ∧
      processUrl p st u = { st with events := st.events ++ [Event.skip u] }) ∨
    (dedupPass p u = true ∧ ∃ st1 : RunState,
      ((st.count + 1 ≤ st.todayLimit ∧ st1 = { st with count := st.count + 1 }) ∨
       (st.count + 1 > st.todayLimit ∧
         st1 = { st with
                   count := 0
                   todayLimit := p.dayLimit
                   time := st.time + dayNs
                   events := st.events ++ [Event.pause] })) ∧
      ((p.notifier u = PubResult.err ∧
         processUrl p st u = { st1 with events := st1.events ++ [Event.pubErr u] }) ∨
       (∃ c, p.notifier u = PubResult.ok c ∧ c ≠ 200 ∧
         processUrl p st u = { st1 with events := st1.events ++ [Event.badStatus u c] }) ∨
       (p.notifier u = PubResult.ok 200 ∧ p.appendOk u = true ∧
         processUrl p st u = { st1 with
                                 log := st1.log ++ [(u, st1.time)]
                                 time := st1.time + p.sleepDur.toNat
                                 events := st1.events ++ [Event.sent u st1.time] }) ∨
       (p.notifier u = PubResult.ok 200 ∧ p.appendOk u = false ∧
         processUrl p st u = { st1 with events := st1.events ++ [Event.appendFail u] }))) := by
  by_cases hd : dedupPass p u
  · right
    refine ⟨hd, afterQuota p.dayLimit st, ?_, ?_⟩
    · by_cases hq : st.count + 1 > st.todayLimit
      · exact Or.inr ⟨hq, by simp [afterQuota, hq]⟩
      · exact Or.inl ⟨by omega, by simp [afterQuota, hq]⟩
    · cases hn : p.notifier u with
      | err => exact Or.inl ⟨rfl, by simp [processUrl, hd, afterPublish, hn]⟩
      | ok c =>
          by_cases hc : c = 200
          · subst hc
            by_cases ha : p.appendOk u
            · exact Or.inr (Or.inr (Or.inl
                ⟨rfl, ha, by simp [processUrl, hd, afterPublish, hn, ha]⟩))
            · exact Or.inr (Or.inr (Or.inr
                ⟨rfl, by simpa using ha, by simp [processUrl, hd, afterPublish, hn, ha]⟩))
          · exact Or.inr (Or.inl
              ⟨c, rfl, hc, by simp [processUrl, hd, afterPublish, hn, hc]⟩)
  · exact Or.inl ⟨by simpa using hd, by simp [processUrl, hd]⟩

theorem events_step (p : Params) (st : RunState) (u : String) :
    st.events <+: (processUrl p st u).events := by
  rcases processUrl_spec p st u with ⟨_, h⟩ | ⟨_, st1, hq, hc⟩
  · exact ⟨[Event.skip u], by rw [h]⟩
  · have h1 : st.events <+: st1.events := by
      rcases hq with ⟨_, h1⟩ | ⟨_, h1⟩
      · exact ⟨[], by rw [h1]; simp⟩
      · exact ⟨[Event.pause], by rw [h1]⟩
    rcases hc with ⟨_, h2⟩ | ⟨c, _, _, h2⟩ | ⟨_, _, h2⟩ | ⟨_, _, h2⟩ <;> rw [h2] <;>
      exact h1.trans ⟨_, rfl⟩

theorem events_runFrom (p : Params) (urls : List String) :
    ∀ st : RunState, st.events <+: (runFrom p st urls).events := by
  induction urls with
  | nil => intro st; exact ⟨[], by simp [runFrom_nil]⟩
  | cons u rest ih =>
      intro st
      rw [runFrom_cons]
      exact (events_step p st u).trans (ih (processUrl p st u))

theorem stepEvents_eq (p : Params) (st : RunState) (u : String) (l : List Event)
    (h : (processUrl p st u).events = st.events ++ l) :
    stepEvents p st u = l := by
  rw [stepEvents, h, List.drop_left]

theorem log_step (p : Params) (st : RunState) (u : String) :
    (processUrl p st u).log = st.log ∨
    (dedupPass p u = true ∧ ∃ t, (processUrl p st u).log = st.log ++ [(u, t)]) := by
  rcases processUrl_spec p st u with ⟨_, h⟩ | ⟨hd, st1, hq, hc⟩
  · exact Or.inl (by rw [h])
  · have h1 : st1.log = st.log := by
      rcases hq with ⟨_, h1⟩ | ⟨_, h1⟩ <;> rw [h1]
    rcases hc with ⟨_, h2⟩ | ⟨c, _, _, h2⟩ | ⟨_, _, h2⟩ | ⟨_, _, h2⟩
    · exact Or.inl (by rw [h2, h1])
    · exact Or.inl (by rw [h2, h1])
    · exact Or.inr ⟨hd, st1.time, by rw [h2]; simp [h1]⟩
    · exact Or.inl (by rw [h2, h1])

theorem publishedUrls_step (p : Params) (st : RunState) (u : String) :
    publishedUrls (processUrl p st u).events = publishedUrls st.events ∨
    (dedupPass p u = true ∧
      publishedUrls (processUrl p st u).events = publishedUrls st.events ++ [u]) := by
  rcases processUrl_spec p st u with ⟨_, h⟩ | ⟨hd, st1, hq, hc⟩
  · exact Or.inl (by rw [h]; simp [publishedUrls_append])
  · have h1 : publishedUrls st1.events = publishedUrls st.events := by
      rcases hq with ⟨_, h1⟩ | ⟨_, h1⟩ <;> rw [h1] <;> simp [publishedUrls_append]
    rcases hc with ⟨_, h2⟩ | ⟨c, _, _, h2⟩ | ⟨_, _, h2⟩ | ⟨_, _, h2⟩
    · exact Or.inr ⟨hd, by rw [h2]; simp [publishedUrls_append, h1]⟩
    · exact Or.inr ⟨hd, by rw [h2]; simp [publishedUrls_append, h1]⟩
    · exact Or.inr ⟨hd, by rw [h2]; simp [publishedUrls_append, h1]⟩
    · exact Or.inl (by rw [h2]; simp [publishedUrls_append, h1])

theorem time_step_mono (p : Params) (st : RunState) (u : String) :
    st.time ≤ (processUrl p st u).time := by
  rcases processUrl_spec p st u with ⟨_, h⟩ | ⟨_, st1, hq, hc⟩
  · rw [h]
  · have h1 : st.time ≤ st1.time := by
      rcases hq with ⟨_, h1⟩ | ⟨_, h1⟩ <;> rw [h1] <;> simp
    rcases hc with ⟨_, h2⟩ | ⟨c, _, _, h2⟩ | ⟨_, _, h2⟩ | ⟨_, _, h2⟩ <;> rw [h2] <;>
      simp <;> omega

theorem dedupPass_false_of_known (p : Params) (u : String)
    (h : contains p.indexedUrls u = true ∨ contains p.sentUrls u = true) :
    dedupPass p u = false := by
  rcases h with h | h <;> simp [dedupPass, h]

theorem known_run_invariant (p : Params) (u : String) (hd : dedupPass p u = false)
    (urls : List String) :
    ∀ st : RunState, u ∉ publishedUrls st.events → (∀ e ∈ st.log, e.1 ≠ u) →
      u ∉ publishedUrls (runFrom p st urls).events ∧
      ∀ e ∈ (runFrom p st urls).log, e.1 ≠ u := by
  induction urls with
  | nil => intro st h1 h2; rw [runFrom_nil]; exact ⟨h1, h2⟩
  | cons v rest ih =>
      intro st h1 h2
      rw [runFrom_cons]
      apply ih
      · rcases publishedUrls_step p st v with h3 | ⟨hdv, h3⟩
        · rw [h3]; exact h1
        · rw [h3]
          intro hmem
          rcases List.mem_append.mp hmem with hm | hm
          · exact h1 hm
          · have huv : u = v := by simpa using hm
            rw [huv] at hd
            rw [hd] at hdv
            cases hdv
      · rcases log_step p st v with h3 | ⟨hdv, t, h3⟩
        · rw [h3]; exact h2
        · rw [h3]
          intro e hmem
          rcases List.mem_append.mp hmem with hm | hm
          · exact h2 e hm
          · have hev : e = (v, t) := by simpa using hm
            rw [hev]
            intro hvu
            simp only at hvu
            rw [hvu] at hdv
            rw [hd] at hdv
            cases hdv

theorem logCount_append (u : String) (l1 l2 : List (String × Nat)) :
    logCount u (l1 ++ l2) = logCount u l1 + logCount u l2 := by
  simp [logCount, List.countP_append]

theorem logCount_runFrom (p : Params) (u : String) (urls : List String) :
    ∀ st : RunState,
      logCount u (runFrom p st urls).log ≤ logCount u st.log + List.count u urls := by
  induction urls with
  | nil => intro st; simp [runFrom_nil]
  | cons v rest ih =>
      intro st
      rw [runFrom_cons]
      have h1 := ih (processUrl p st v)
      have h2 : logCount u (processUrl p st v).log ≤
          logCount u st.log + (if v == u then 1 else 0) := by
        rcases log_step p st v with h | ⟨_, t, h⟩
        · rw [h]; exact Nat.le_add_right _ _
        · rw [h, logCount_append]
          have h3 : logCount u [(v, t)] = if v == u then 1 else 0 := by
            simp [logCount, List.countP_cons, List.countP_nil]
          rw [h3]
      rw [List.count_cons]
      by_cases hv : v == u
      · simp only [hv, if_true] at h2 ⊢
        omega
      · simp only [hv, if_false] at h2 ⊢
        omega

/-! ### Claim C1 -/

/-- C1 counterexample: with both loaded sets empty and a sitemap containing
the same URL twice, a run in which every publish returns 200 and every
append succeeds records the URL twice in the sent log, so a successfully
notified URL is NOT immediately treated as known and does NOT appear at
most once per run-session. -/
theorem c1_counterexample :
    logCount "a"
      (run { dayLimit := 10, sleepDur := 1100000000, notifier := fun _ => PubResult.ok 200,
             appendOk := fun _ => true, indexedUrls := [], sentUrls := [] }
           10 0 ["a", "a"]).log = 2 ∧ ¬ (2 ≤ 1) :=
  ⟨by decide, by decide⟩

/-- C1 (amended): the dedup check consults only the two sets loaded at
startup, so a URL sent during the run is not added to the in-memory set and
a later sitemap occurrence of it is published and appended again; what does
hold is that each URL appears in the sent log at most as many times as it
occurs in the sitemap list. -/
theorem c1_amended_per_occurrence (p : Params) (tl0 : Int) (t0 : Nat)
    (urls : List String) (u : String) :
    logCount u (run p tl0 t0 urls).log ≤ List.count u urls := by
  have h := logCount_runFrom p u urls
    { count := 0, todayLimit := tl0, time := t0, log := [], events := [] }
  simpa [run, logCount] using h

/-! ### Claim C2 -/

/-- C2: a URL present in the indexed set or in the sent set as loaded at
startup is never given to the publish call, its processing step changes
nothing but the ghost trace (no counter change, no pause, no log append,
no sleep), and no log entry is ever created for it. -/
theorem c2_dedup_idempotent (p : Params) (tl0 : Int) (t0 : Nat) (urls : List String)
    (u : String)
    (h : contains p.indexedUrls u = true ∨ contains p.sentUrls u = true) :
    (∀ st : RunState, processUrl p st u = { st with events := st.events ++ [Event.skip u] }) ∧
    u ∉ publishedUrls (run p tl0 t0 urls).events ∧
    ∀ e ∈ (run p tl0 t0 urls).log, e.1 ≠ u := by
  have hd := dedupPass_false_of_known p u h
  have hrun := known_run_invariant p u hd urls
    { count := 0, todayLimit := tl0, time := t0, log := [], events := [] }
    (by simp) (by simp)
  refine ⟨?_, hrun.1, hrun.2⟩
  intro st
  rcases processUrl_spec p st u with ⟨_, h2⟩ | ⟨h2, _⟩
  · exact h2
  · rw [hd] at h2; cases h2

/-- C2 witness instance. -/
theorem c2_dedup_idempotent_witness :
    (∀ st : RunState,
        processUrl { dayLimit := 5, sleepDur := 1100000000,
                     notifier := fun _ => PubResult.ok 200, appendOk := fun _ => true,
                     indexedUrls := ["b"], sentUrls := ["c"] } st "b" =
          { st with events := st.events ++ [Event.skip "b"] }) ∧
    "b" ∉ publishedUrls
      (run { dayLimit := 5, sleepDur := 1100000000, notifier := fun _ => PubResult.ok 200,
             appendOk := fun _ => true, indexedUrls := ["b"], sentUrls := ["c"] }
           5 0 ["a", "b", "c"]).events ∧
    ∀ e ∈ (run { dayLimit := 5, sleepDur := 1100000000,
                 notifier := fun _ => PubResult.ok 200, appendOk := fun _ => true,
                 indexedUrls := ["b"], sentUrls := ["c"] }
               5 0 ["a", "b", "c"]).log, e.1 ≠ "b" :=
  c2_dedup_idempotent _ 5 0 ["a", "b", "c"] "b" (Or.inl (by decide))

/-! ### Claim C3 -/

/-- C3 counterexample: dailyLimit = 1 and an empty sent file, sitemap
[a, b, c], every publish succeeding. The run sends a, pauses 24h at b,
resets the budget to the full limit, then sends both b and c on the next
calendar day: that day carries 2 recorded sends, exceeding dailyLimit = 1. -/
theorem c3_counterexample :
    dateCount
      (run { dayLimit := 1, sleepDur := 1100000000, notifier := fun _ => PubResult.ok 200,
             appendOk := fun _ => true, indexedUrls := [], sentUrls := [] }
           1 0 ["a", "b", "c"]).log 1 = 2 ∧ ¬ (2 ≤ 1) :=
  ⟨by decide, by decide⟩

theorem runFrom_log_le (p : Params) (urls : List String) :
    ∀ st : RunState, Event.pause ∉ (runFrom p st urls).events →
      ((runFrom p st urls).log.length : Int) ≤
        st.log.length + max 0 (st.todayLimit - st.count) := by
  induction urls with
  | nil =>
      intro st _
      rw [runFrom_nil]
      have hm : (0 : Int) ≤ max 0 (st.todayLimit - st.count) := le_max_left _ _
      omega
  | cons v rest ih =>
      intro st h
      rw [runFrom_cons] at h ⊢
      have hnp : Event.pause ∉ (processUrl p st v).events := fun hm =>
        h ((events_runFrom p rest (processUrl p st v)).subset hm)
      have hstep := ih (processUrl p st v) h
      rcases processUrl_spec p st v with ⟨_, h2⟩ | ⟨_, st1, hq, hc⟩
      · rw [h2] at hstep ⊢
        simpa using hstep
      · rcases hq with ⟨hq1, h1⟩ | ⟨hq1, h1⟩
        · subst h1
          rcases hc with ⟨_, h2⟩ | ⟨c, _, _, h2⟩ | ⟨_, _, h2⟩ | ⟨_, _, h2⟩ <;>
            rw [h2] at hstep ⊢ <;> simp at hstep ⊢ <;> omega
        · exfalso
          apply hnp
          subst h1
          rcases hc with ⟨_, h2⟩ | ⟨c, _, _, h2⟩ | ⟨_, _, h2⟩ | ⟨_, _, h2⟩ <;> rw [h2] <;> simp

/-- C3 (amended): the daily bound holds only for runs that trigger no
24-hour pause: if the run pauses, the post-pause reset to the full limit
can put up to dailyLimit + 1 sends on one calendar date. For a pause-free
run, the startup count for the current date plus every send recorded by the
run (on any date, hence on the current date) stays within dailyLimit. -/
theorem c3_amended_no_pause (p : Params) (tas : Nat) (t0 : Nat) (urls : List String)
    (d : Nat)
    (htas : (tas : Int) ≤ p.dayLimit)
    (hnp : Event.pause ∉ (run p (p.dayLimit - (tas : Int)) t0 urls).events) :
    (tas : Int) + dateCount (run p (p.dayLimit - (tas : Int)) t0 urls).log d ≤
      p.dayLimit := by
  rw [run] at hnp ⊢
  have h1 := runFrom_log_le p urls
    { count := 0, todayLimit := p.dayLimit - (tas : Int), time := t0, log := [], events := [] }
    hnp
  simp at h1
  rcases h1 with h1 | h1
  · have hz : dateCount
        (runFrom p
          { count := 0, todayLimit := p.dayLimit - (tas : Int), time := t0,
            log := [], events := [] } urls).log d = 0 := by
      rw [h1]; rfl
    omega
  · have h2 : dateCount
        (runFrom p
          { count := 0, todayLimit := p.dayLimit - (tas : Int), time := t0,
            log := [], events := [] } urls).log d ≤
        (runFrom p
          { count := 0, todayLimit := p.dayLimit - (tas : Int), time := t0,
            log := [], events := [] } urls).log.length :=
      List.length_filter_le _ _
    omega

/-- C3 amended witness instance. -/
theorem c3_amended_no_pause_witness :
    (((1 : Nat) : Int) ≤
        (({ dayLimit := 5, sleepDur := 1100000000, notifier := fun _ => PubResult.ok 200,
            appendOk := fun _ => true, indexedUrls := [], sentUrls := [] } : Params)).dayLimit) ∧
    Event.pause ∉
      (run { dayLimit := 5, sleepDur := 1100000000, notifier := fun _ => PubResult.ok 200,
             appendOk := fun _ => true, indexedUrls := [], sentUrls := [] }
           (5 - ((1 : Nat) : Int)) 0 ["a"]).events ∧
    ((1 : Nat) : Int) + dateCount
      (run { dayLimit := 5, sleepDur := 1100000000, notifier := fun _ => PubResult.ok 200,
             appendOk := fun _ => true, indexedUrls := [], sentUrls := [] }
           (5 - ((1 : Nat) : Int)) 0 ["a"]).log 0 ≤ 5 :=
  ⟨by decide, by decide,
    c3_amended_no_pause _ 1 0 ["a"] 0 (by decide) (by decide)⟩

/-! ### Claim C4 -/

/-- C4 counterexample: dailyLimit = 1, sitemap [a, b], the publish of `a`
fails with a transport error. No URL has been successfully sent (0 sends),
yet processing `b` pushes the count to 2 > 1 and triggers the 24-hour
pause: the pause decision is driven by attempted URLs, not successful
sends, so it is not taken "exactly when the count of URLs sent so far
exceeds remainingToday". -/
theorem c4_counterexample :
    (run { dayLimit := 1, sleepDur := 1100000000,
           notifier := fun u => if u = "a" then PubResult.err else PubResult.ok 200,
           appendOk := fun _ => true, indexedUrls := [], sentUrls := [] }
         1 0 ["a", "b"]).events =
      [Event.pubErr "a", Event.pause, Event.sent "b" 86400000000000] ∧
    sentCount [Event.pubErr "a"] = 0 ∧ ¬ ((0 : Int) > 1) :=
  ⟨by decide, by decide, by decide⟩

/-- C4 (amended): for a URL that passes dedup, the pause fires exactly when
the incremented attempt counter (counting every dedup-passing URL of the
current run segment, failures included, plus the current URL) exceeds
remainingToday; when it fires, the caller blocks 24 hours, todayLimit is
reset to the full daily limit, the counter is left at 0, and the same URL
is then published without re-evaluating dedup — with a 200 response and a
successful append it is sent and recorded. -/
theorem c4_amended_pause_rule (p : Params) (st : RunState) (u : String)
    (hd : dedupPass p u = true) :
    (Event.pause ∈ stepEvents p st u ↔ st.count + 1 > st.todayLimit) ∧
    (st.count + 1 > st.todayLimit →
      (processUrl p st u).todayLimit = p.dayLimit ∧
      (p.notifier u = PubResult.ok 200 → p.appendOk u = true →
        Event.sent u (st.time + dayNs) ∈ stepEvents p st u ∧
        (processUrl p st u).count = 0)) := by
  rcases processUrl_spec p st u with ⟨hd2, _⟩ | ⟨_, st1, hq, hc⟩
  · rw [hd] at hd2; cases hd2
  · rcases hq with ⟨hq1, h1⟩ | ⟨hq1, h1⟩
    · have hnogt : ¬ (st.count + 1 > st.todayLimit) := by omega
      rcases hc with ⟨_, h2⟩ | ⟨c, _, _, h2⟩ | ⟨_, _, h2⟩ | ⟨_, _, h2⟩ <;>
        [ (have he : (processUrl p st u).events = st.events ++ [Event.pubErr u] := by
             rw [h2, h1]);
          (have he : (processUrl p st u).events = st.events ++ [Event.badStatus u c] := by
             rw [h2, h1]);
          (have he : (processUrl p st u).events = st.events ++ [Event.sent u st.time] := by
             rw [h2, h1]);
          (have he : (processUrl p st u).events = st.events ++ [Event.appendFail u] := by
             rw [h2, h1])] <;>
        rw [stepEvents_eq p st u _ he] <;>
        exact ⟨by simp; omega, fun hgt => absurd hgt hnogt⟩
    · rcases hc with ⟨hn, h2⟩ | ⟨c, hn, hc200, h2⟩ | ⟨hn, ha, h2⟩ | ⟨hn, ha, h2⟩
      · have he : (processUrl p st u).events =
            st.events ++ [Event.pause, Event.pubErr u] := by
          rw [h2, h1]; simp
        rw [stepEvents_eq p st u _ he]
        refine ⟨by simp; omega, fun _ => ⟨by rw [h2, h1], fun hn200 _ => ?_⟩⟩
        rw [hn] at hn200; cases hn200
      · have he : (processUrl p st u).events =
            st.events ++ [Event.pause, Event.badStatus u c] := by
          rw [h2, h1]; simp
        rw [stepEvents_eq p st u _ he]
        refine ⟨by simp; omega, fun _ => ⟨by rw [h2, h1], fun hn200 _ => ?_⟩⟩
        rw [hn] at hn200
        injection hn200 with h
        exact absurd h hc200
      · have he : (processUrl p st u).events =
            st.events ++ [Event.pause, Event.sent u (st.time + dayNs)] := by
          rw [h2, h1]; simp
        rw [stepEvents_eq p st u _ he]
        refine ⟨by simp; omega, fun _ => ⟨by rw [h2, h1], fun _ _ => ⟨by simp, ?_⟩⟩⟩
        rw [h2, h1]
      · have he : (processUrl p st u).events =
            st.events ++ [Event.pause, Event.appendFail u] := by
          rw [h2, h1]; simp
        rw [stepEvents_eq p st u _ he]
        refine ⟨by simp; omega, fun _ => ⟨by rw [h2, h1], fun _ ha2 => ?_⟩⟩
        rw [ha] at ha2; cases ha2

/-- C4 amended witness instance. -/
theorem c4_amended_pause_rule_witness :
    (Event.pause ∈ stepEvents
        { dayLimit := 1, sleepDur := 1100000000, notifier := fun _ => PubResult.ok 200,
          appendOk := fun _ => true, indexedUrls := [], sentUrls := [] }
        { count := 1, todayLimit := 1, time := 0, log := [], events := [] } "b" ↔
      (1 : Int) + 1 > 1) ∧
    ((1 : Int) + 1 > 1 →
      (processUrl
          { dayLimit := 1, sleepDur := 1100000000, notifier := fun _ => PubResult.ok 200,
            appendOk := fun _ => true, indexedUrls := [], sentUrls := [] }
          { count := 1, todayLimit := 1, time := 0, log := [], events := [] }
          "b").todayLimit = 1 ∧
      ((fun (_ : String) => PubResult.ok 200) "b" = PubResult.ok 200 →
        (fun (_ : String) => true) "b" = true →
        Event.sent "b" (0 + dayNs) ∈ stepEvents
          { dayLimit := 1, sleepDur := 1100000000, notifier := fun _ => PubResult.ok 200,
            appendOk := fun _ => true, indexedUrls := [], sentUrls := [] }
          { count := 1, todayLimit := 1, time := 0, log := [], events := [] } "b" ∧
        (processUrl
            { dayLimit := 1, sleepDur := 1100000000, notifier := fun _ => PubResult.ok 200,
              appendOk := fun _ => true, indexedUrls := [], sentUrls := [] }
            { count := 1, todayLimit := 1, time := 0, log := [], events := [] }
            "b").count = 0)) :=
  c4_amended_pause_rule _ _ "b" (by decide)

/-! ### Claim C5 -/

/-- C5 counterexample: the per-minute limit string "-1" parses to the
negative value -1, yet the program does not fail with a configuration
error: it runs to completion and publishes the sitemap URL. And the string
"0" parses to 0, for which the program aborts with the division-by-zero
panic at the sleep computation — a crash distinct from the configuration
error. The only validation performed on the rate limits is that
`strconv.Atoi` succeeds. -/
theorem c5_counterexample :
    atoi "-1" = Except.ok (-1) ∧
    Except.map (fun st => publishedUrls st.events)
      (program "200" "-1" (FileState.present []) (FileState.present []) ["a"]
        (fun _ => PubResult.ok 200) (fun _ => true) "2026-10-11" 0) =
      Except.ok ["a"] ∧
    atoi "0" = Except.ok 0 ∧
    program "200" "0" (FileState.present []) (FileState.present []) ["a"]
        (fun _ => PubResult.ok 200) (fun _ => true) "2026-10-11" 0 =
      Except.error MainError.divByZero ∧
    MainError.divByZero ≠ MainError.configErr :=
  ⟨rfl, rfl, rfl, rfl, by decide⟩

/-- C5 (amended): the startup validation of the rate limits checks only
that both environment strings parse as integers. Any parsed per-minute
value other than 0 — negative values included — is accepted: the sleep
duration is computed from it and the run proceeds to URL processing.
A parsed value of exactly 0 aborts the program with the division-by-zero
panic at the sleep computation — which is not the configuration error —
before any URL is processed. -/
theorem c5_amended_no_range_check (s t : String) (d m : Int) (indexedF sentF : FileState)
    (urls : List String) (notifier : String → PubResult) (appendOk : String → Bool)
    (today : String) (t0 : Nat) (iu su : List String) (tas : Nat)
    (hd : atoi s = Except.ok d) (hm : atoi t = Except.ok m)
    (hl : loadStartup indexedF sentF today = Except.ok (iu, su, tas)) :
    (m ≠ 0 →
      program s t indexedF sentF urls notifier appendOk today t0 =
        Except.ok (run { dayLimit := d, sleepDur := Int.tdiv 60000000000 m + 100000000,
                         notifier := notifier, appendOk := appendOk,
                         indexedUrls := iu, sentUrls := su }
                       (d - (tas : Int)) t0 urls)) ∧
    (m = 0 →
      program s t indexedF sentF urls notifier appendOk today t0 =
        Except.error MainError.divByZero ∧
      MainError.divByZero ≠ MainError.configErr) := by
  constructor
  · intro hm0
    simp [program, computeSleep, hd, hm, hm0, hl]
  · intro hm0
    subst hm0
    refine ⟨?_, by decide⟩
    simp [program, computeSleep, hd, hm]

/-- C5 amended witness instance: the theorem applied once at the parsed
per-minute value -1 (the run proceeds and is returned) and once at the
parsed value 0 (the program aborts with the division-by-zero error, which
differs from the configuration error). -/
theorem c5_amended_no_range_check_witness :
    (program "200" "-1" (FileState.present []) (FileState.present []) ["a"]
        (fun _ => PubResult.ok 200) (fun _ => true) "2026-10-11" 0 =
      Except.ok (run { dayLimit := 200, sleepDur := Int.tdiv 60000000000 (-1) + 100000000,
                       notifier := fun _ => PubResult.ok 200, appendOk := fun _ => true,
                       indexedUrls := [], sentUrls := [] }
                     (200 - ((0 : Nat) : Int)) 0 ["a"])) ∧
    (program "200" "0" (FileState.present []) (FileState.present []) ["a"]
        (fun _ => PubResult.ok 200) (fun _ => true) "2026-10-11" 0 =
      Except.error MainError.divByZero ∧
     MainError.divByZero ≠ MainError.configErr) :=
  ⟨(c5_amended_no_range_check "200" "-1" 200 (-1) (FileState.present [])
      (FileState.present []) ["a"] (fun _ => PubResult.ok 200) (fun _ => true)
      "2026-10-11" 0 [] [] 0 rfl rfl rfl).1 (by decide),
   (c5_amended_no_range_check "200" "0" 200 0 (FileState.present [])
      (FileState.present []) ["a"] (fun _ => PubResult.ok 200) (fun _ => true)
      "2026-10-11" 0 [] [] 0 rfl rfl rfl).2 rfl⟩

/-! ### Claim C6 -/

/-- C6 counterexample: an absent indexed file is not an IOError — `readCsv`
opens it with `O_CREATE`, so it is created and loaded as the empty set, and
startup succeeds. -/
theorem c6_counterexample :
    readCsv FileState.absent = Except.ok ([], FileState.present []) ∧
    loadStartup FileState.absent (FileState.present []) "2026-10-11" =
      Except.ok ([], [], 0) :=
  ⟨rfl, rfl⟩

/-- C6 (amended): an absent file — sent or indexed — is created and treated
as an empty set (loading with an absent indexed file behaves exactly as
with an empty present one), while a path unreadable for another reason
(either of the two) fails the load with an IOError. -/
theorem c6_amended_absent_created (f : FileState) (today : String) :
    readCsv FileState.absent = Except.ok ([], FileState.present []) ∧
    readCsv FileState.unreadable = Except.error MainError.ioErr ∧
    loadStartup FileState.unreadable f today = Except.error MainError.ioErr ∧
    loadStartup (FileState.present []) FileState.unreadable today =
      Except.error MainError.ioErr ∧
    loadStartup FileState.absent f today = loadStartup (FileState.present []) f today :=
  ⟨rfl, rfl, rfl, rfl, rfl⟩

/-! ### Claim C7 -/

theorem fieldColumn_missing (i : Nat) (recs : List (List String))
    (h : ∃ r ∈ recs, r[i]? = none) :
    fieldColumn i recs = Except.error MainError.indexOutOfRange := by
  induction recs with
  | nil => simp at h
  | cons r rest ih =>
      rcases h with ⟨r0, hmem, hr0⟩
      rcases List.mem_cons.mp hmem with heq | hmem2
      · rw [heq] at hr0
        simp [fieldColumn, recordField, hr0]
      · cases hg : r[i]? with
        | none => simp [fieldColumn, recordField, hg]
        | some v => simp [fieldColumn, recordField, hg, ih ⟨r0, hmem2, hr0⟩]

theorem csvReadAll_ok_eq (recs recs2 : List (List String))
    (h : csvReadAll recs = Except.ok recs2) : recs2 = recs := by
  cases recs with
  | nil =>
      simp [csvReadAll] at h
      exact h
  | cons r rest =>
      by_cases hall : rest.all (fun x => x.length == r.length)
      · simp [csvReadAll, hall] at h
        exact h.symm
      · simp [csvReadAll, hall] at h

theorem loadStartup_short_sent_fails (indexedF : FileState) (recs : List (List String))
    (today : String) (h : ∃ r ∈ recs, r.length < 2) :
    ∃ e, loadStartup indexedF (FileState.present recs) today = Except.error e := by
  cases hi : readCsv indexedF with
  | error e => exact ⟨e, by simp [loadStartup, hi]⟩
  | ok v =>
      obtain ⟨iu, f0⟩ := v
      cases hc : csvReadAll recs with
      | error e =>
          have hrs : readCsv (FileState.present recs) = Except.error e := by
            simp [readCsv, hc]
          exact ⟨e, by simp [loadStartup, hi, hrs]⟩
      | ok recs2 =>
          rw [csvReadAll_ok_eq recs recs2 hc] at hc
          obtain ⟨r, hr, hrl⟩ := h
          have hr1 : r[1]? = none := List.getElem?_eq_none (by omega)
          have hf1 : fieldColumn 1 recs = Except.error MainError.indexOutOfRange :=
            fieldColumn_missing 1 recs ⟨r, hr, hr1⟩
          have hts : todaySent (FileState.present recs) today =
              Except.error MainError.indexOutOfRange := by
            simp [todaySent, hc, hf1]
          cases hf0 : fieldColumn 0 recs with
          | error e =>
              have hrs : readCsv (FileState.present recs) = Except.error e := by
                simp [readCsv, hc, hf0]
              exact ⟨e, by simp [loadStartup, hi, hrs]⟩
          | ok urls =>
              have hrs : readCsv (FileState.present recs) =
                  Except.ok (urls, FileState.present recs) := by
                simp [readCsv, hc, hf0]
              exact ⟨MainError.indexOutOfRange, by simp [loadStartup, hi, hrs, hts]⟩

/-- C7: a sent-file containing a row with fewer than 2 fields makes the
startup load fail — either the csv reader's field-count check rejects the
file or the `record[1]` access panics in `todaySent` — so the whole program
aborts before any URL is processed, whatever the other inputs are. -/
theorem c7_malformed_sent_fatal (indexedF : FileState) (recs : List (List String))
    (today dayStr minStr : String) (urls : List String) (notifier : String → PubResult)
    (appendOk : String → Bool) (t0 : Nat)
    (h : ∃ r ∈ recs, r.length < 2) :
    (∃ e, loadStartup indexedF (FileState.present recs) today = Except.error e) ∧
    (∃ e, program dayStr minStr indexedF (FileState.present recs) urls notifier appendOk
        today t0 = Except.error e) := by
  obtain ⟨e0, he0⟩ := loadStartup_short_sent_fails indexedF recs today h
  refine ⟨⟨e0, he0⟩, ?_⟩
  cases hd : atoi dayStr with
  | error e => exact ⟨e, by simp [program, hd]⟩
  | ok dv =>
      cases hm : atoi minStr with
      | error e => exact ⟨e, by simp [program, hd, hm]⟩
      | ok mv =>
          cases hs : computeSleep mv with
          | error e => exact ⟨e, by simp [program, hd, hm, hs]⟩
          | ok sv => exact ⟨e0, by simp [program, hd, hm, hs, he0]⟩

/-- C7 witness instance. -/
theorem c7_malformed_sent_fatal_witness :
    (∃ e, loadStartup (FileState.present []) (FileState.present [["u"]]) "2026-10-11" =
        Except.error e) ∧
    (∃ e, program "200" "60" (FileState.present []) (FileState.present [["u"]]) ["a"]
        (fun _ => PubResult.ok 200) (fun _ => true) "2026-10-11" 0 = Except.error e) :=
  c7_malformed_sent_fatal (FileState.present []) [["u"]] "2026-10-11" "200" "60" ["a"]
    (fun _ => PubResult.ok 200) (fun _ => true) 0 ⟨["u"], by decide, by decide⟩

/-! ### Claim C8 -/

theorem chrono_step (p : Params) (st : RunState) (u : String)
    (h1 : List.Chain' (fun a b : String × Nat => a.2 + p.sleepDur.toNat ≤ b.2) st.log)
    (h2 : ∀ x ∈ st.log.getLast?, x.2 + p.sleepDur.toNat ≤ st.time) :
    List.Chain' (fun a b : String × Nat => a.2 + p.sleepDur.toNat ≤ b.2)
      (processUrl p st u).log ∧
    ∀ x ∈ (processUrl p st u).log.getLast?,
      x.2 + p.sleepDur.toNat ≤ (processUrl p st u).time := by
  rcases processUrl_spec p st u with ⟨_, h⟩ | ⟨_, st1, hq, hc⟩
  · rw [h]; exact ⟨h1, h2⟩
  · have hlog1 : st1.log = st.log := by
      rcases hq with ⟨_, hh⟩ | ⟨_, hh⟩ <;> rw [hh]
    have htime1 : st.time ≤ st1.time := by
      rcases hq with ⟨_, hh⟩ | ⟨_, hh⟩ <;> rw [hh] <;> simp
    have h2' : ∀ x ∈ st1.log.getLast?, x.2 + p.sleepDur.toNat ≤ st1.time := by
      rw [hlog1]
      intro x hx
      exact le_trans (h2 x hx) htime1
    have hkeep : List.Chain' (fun a b : String × Nat => a.2 + p.sleepDur.toNat ≤ b.2)
        st1.log := by
      rw [hlog1]
      exact h1
    rcases hc with ⟨_, h⟩ | ⟨c, _, _, h⟩ | ⟨_, _, h⟩ | ⟨_, _, h⟩
    · rw [h]
      exact ⟨hkeep, h2'⟩
    · rw [h]
      exact ⟨hkeep, h2'⟩
    · rw [h]
      constructor
      · show List.Chain' (fun a b : String × Nat => a.2 + p.sleepDur.toNat ≤ b.2)
          (st1.log ++ [(u, st1.time)])
        refine List.chain'_append.mpr ⟨hkeep, by simp, ?_⟩
        intro x hx y hy
        simp at hy
        rw [← hy]
        exact h2' x hx
      · show ∀ x ∈ (st1.log ++ [(u, st1.time)]).getLast?,
            x.2 + p.sleepDur.toNat ≤ st1.time + p.sleepDur.toNat
        intro x hx
        rw [List.getLast?_concat] at hx
        simp at hx
        rw [← hx]
    · rw [h]
      exact ⟨hkeep, h2'⟩

theorem chrono_runFrom (p : Params) (urls : List String) :
    ∀ st : RunState,
      List.Chain' (fun a b : String × Nat => a.2 + p.sleepDur.toNat ≤ b.2) st.log →
      (∀ x ∈ st.log.getLast?, x.2 + p.sleepDur.toNat ≤ st.time) →
      List.Chain' (fun a b : String × Nat => a.2 + p.sleepDur.toNat ≤ b.2)
        (runFrom p st urls).log := by
  induction urls with
  | nil => intro st h1 _; rw [runFrom_nil]; exact h1
  | cons u rest ih =>
      intro st h1 h2
      rw [runFrom_cons]
      obtain ⟨h1', h2'⟩ := chrono_step p st u h1 h2
      exact ih (processUrl p st u) h1' h2'

/-- C8: with perMinuteLimit = 60, the computed sleep duration is
60s/60 + 100ms = 1.1s; after every persisted send the loop sleeps that
long before anything else happens, so the timestamps of consecutive log
entries are at least 600ms apart (they are in fact at least 1.1s apart) in
every run, whatever the notifier, the append oracle, the loaded sets or
the sitemap. -/
theorem c8_pacing_spacing (dayLimit tl0 : Int) (notifier : String → PubResult)
    (appendOk : String → Bool) (indexed sent0 : List String) (t0 : Nat)
    (urls : List String) :
    computeSleep 60 = Except.ok 1100000000 ∧
    List.Chain' (fun a b : String × Nat => a.2 + 600000000 ≤ b.2)
      (run { dayLimit := dayLimit, sleepDur := 1100000000, notifier := notifier,
             appendOk := appendOk, indexedUrls := indexed, sentUrls := sent0 }
           tl0 t0 urls).log := by
  refine ⟨rfl, ?_⟩
  rw [run]
  have h := chrono_runFrom
    { dayLimit := dayLimit, sleepDur := 1100000000, notifier := notifier,
      appendOk := appendOk, indexedUrls := indexed, sentUrls := sent0 } urls
    { count := 0, todayLimit := tl0, time := t0, log := [], events := [] }
    (by simp) (by simp)
  exact h.imp (fun a b hab => by simp at hab; omega)

/-! ### Claim C9 -/

theorem appendAll_eq (pairs : List (String × String)) :
    ∀ recs, appendAll recs pairs = recs ++ pairs.map (fun q => [q.1, q.2]) := by
  induction pairs with
  | nil => intro recs; simp [appendAll]
  | cons q rest ih =>
      intro recs
      have h : appendAll recs (q :: rest) =
          appendAll (recs ++ [[q.1, q.2]]) rest := rfl
      rw [h, ih, List.append_assoc]
      simp

theorem csvReadAll_pairs (pairs : List (String × String)) :
    csvReadAll (pairs.map (fun q => [q.1, q.2])) =
      Except.ok (pairs.map (fun q => [q.1, q.2])) := by
  cases pairs with
  | nil => rfl
  | cons q rest =>
      simp [csvReadAll]
      rintro x a b _ rfl
      rfl

theorem fieldColumn_pairs (pairs : List (String × String)) :
    fieldColumn 0 (pairs.map (fun q => [q.1, q.2])) =
      Except.ok (pairs.map Prod.fst) := by
  induction pairs with
  | nil => rfl
  | cons q rest ih => simp [fieldColumn, recordField, ih]

/-- C9: appending N distinct URLs (with arbitrary timestamps) one by one to
an empty sent store and re-reading it with `readCsv` succeeds and yields
exactly those N URLs as the loaded set, whose membership test is true for
exactly the appended URLs and false for every other string. -/
theorem c9_roundTrip (pairs : List (String × String))
    (hnd : (pairs.map Prod.fst).Nodup) :
    readCsv (FileState.present (appendAll [] pairs)) =
      Except.ok (pairs.map Prod.fst, FileState.present (appendAll [] pairs)) ∧
    ∀ u : String, contains (pairs.map Prod.fst) u = true ↔ u ∈ pairs.map Prod.fst := by
  have h0 : appendAll [] pairs = pairs.map (fun q => [q.1, q.2]) := by
    rw [appendAll_eq]
    simp
  constructor
  · rw [h0]
    simp [readCsv, csvReadAll_pairs, fieldColumn_pairs]
  · intro u
    simp [contains]

/-- C9 witness instance. -/
theorem c9_roundTrip_witness :
    readCsv (FileState.present (appendAll [] [("x", "t1"), ("y", "t2")])) =
      Except.ok ([("x", "t1"), ("y", "t2")].map Prod.fst,
        FileState.present (appendAll [] [("x", "t1"), ("y", "t2")])) ∧
    ∀ u : String,
      contains ([("x", "t1"), ("y", "t2")].map Prod.fst) u = true ↔
        u ∈ [("x", "t1"), ("y", "t2")].map Prod.fst :=
  c9_roundTrip [("x", "t1"), ("y", "t2")] (by decide)

/-! ### Claim C10 -/

/-- C10: for a dedup-passing URL, the clock advance of one iteration is the
24-hour pause (exactly when the incremented counter exceeds the limit) plus
the pacing sleep, and the pacing sleep happens precisely when the publish
returned status 200 AND the local append succeeded; on a transport error, a
non-200 status or a failed append the loop moves on with no pacing delay. -/
theorem c10_sleep_iff_persisted (p : Params) (st : RunState) (u : String)
    (hd : dedupPass p u = true) :
    (processUrl p st u).time =
      st.time + (if st.count + 1 > st.todayLimit then dayNs else 0) +
        (if p.notifier u = PubResult.ok 200 ∧ p.appendOk u = true
         then p.sleepDur.toNat else 0) := by
  rcases processUrl_spec p st u with ⟨hd2, _⟩ | ⟨_, st1, hq, hc⟩
  · rw [hd] at hd2; cases hd2
  · have ht1 : st1.time = st.time + (if st.count + 1 > st.todayLimit then dayNs else 0) := by
      rcases hq with ⟨hq1, h1⟩ | ⟨hq1, h1⟩
      · rw [h1, if_neg (by omega)]
        simp
      · rw [h1, if_pos hq1]
    rcases hc with ⟨hn, h⟩ | ⟨c, hn, hc200, h⟩ | ⟨hn, ha, h⟩ | ⟨hn, ha, h⟩
    · rw [h]
      have hno : ¬ (p.notifier u = PubResult.ok 200 ∧ p.appendOk u = true) := by
        rintro ⟨hx, _⟩
        rw [hn] at hx
        cases hx
      rw [if_neg hno]
      show st1.time = _
      rw [ht1]
      simp
    · rw [h]
      have hno : ¬ (p.notifier u = PubResult.ok 200 ∧ p.appendOk u = true) := by
        rintro ⟨hx, _⟩
        rw [hn] at hx
        injection hx with hcc
        exact hc200 hcc
      rw [if_neg hno]
      show st1.time = _
      rw [ht1]
      simp
    · rw [h]
      rw [if_pos (show p.notifier u = PubResult.ok 200 ∧ p.appendOk u = true from ⟨hn, ha⟩)]
      show st1.time + _ = _
      rw [ht1]
    · rw [h]
      have hno : ¬ (p.notifier u = PubResult.ok 200 ∧ p.appendOk u = true) := by
        rintro ⟨_, hx⟩
        rw [ha] at hx
        cases hx
      rw [if_neg hno]
      show st1.time = _
      rw [ht1]
      simp

/-- C10 witness instance. -/
theorem c10_sleep_iff_persisted_witness :
    (processUrl
        { dayLimit := 5, sleepDur := 1100000000, notifier := fun _ => PubResult.ok 200,
          appendOk := fun _ => true, indexedUrls := [], sentUrls := [] }
        { count := 0, todayLimit := 5, time := 0, log := [], events := [] } "a").time =
      0 + (if (0 : Int) + 1 > 5 then dayNs else 0) +
        (if (fun (_ : String) => PubResult.ok 200) "a" = PubResult.ok 200 ∧
            (fun (_ : String) => true) "a" = true
         then ((1100000000 : Int)).toNat else 0) :=
  c10_sleep_iff_persisted _ _ "a" (by decide)
